import Mathlib

/-!
Verification development for the fetch-fun HTTP client library
(middleware composition and retry engine).

The TypeScript sources are embedded shallowly:

* Promises are modelled by `Except`-valued outcomes.  A repeatedly invoked
  async task is modelled as a function from its invocation index to the
  outcome of that invocation (the trace semantics of a stateful mock).
* The unbounded recursion of the retry engine is modelled with explicit
  fuel; `none` means the recursion did not terminate within the fuel.
* JavaScript runtime values relevant to the non-retryable-error protocol
  are modelled by the inductive type `JSVal`.
* IEEE double arithmetic in the backoff calculator is idealised as exact
  rational arithmetic, and the result of Math.random is an explicit
  parameter u with 0 <= u < 1.
-/

/-- Model of the JavaScript values that the error-tagging protocol can
observe: primitives plus objects.  An object carries an optional message,
an optional cause property and an optional value stored under the hidden
notRetryErrorSymbol key (`none` means the property is absent). -/
inductive JSVal where
  | null
  | undefined
  | boolean (b : Bool)
  | number (n : Int)
  | string (s : String)
  | object (message : Option String) (cause : Option JSVal) (notRetryTag : Option JSVal)

/-- JavaScript truthiness for the modelled values (NaN is not modelled;
numbers are idealised as integers). -/
def jsTruthy : JSVal → Bool
  | .null => false
  | .undefined => false
  | .boolean b => b
  | .number n => !(n == 0)
  | .string s => !(s == "")
  | .object _ _ _ => true

/-- Model of the JavaScript expression `a || b`. -/
def jsOr (a b : JSVal) : JSVal :=
  if jsTruthy a then a else b

/-- Property access `v[notRetryErrorSymbol]`: `none` models undefined.
Primitives have no own properties, so the access yields undefined. -/
def notRetryTagOf : JSVal → Option JSVal
  | .object _ _ t => t
  | _ => none

/-- Property access `v.cause`; undefined (modelled `.undefined`) when absent. -/
def causeOf : JSVal → JSVal
  | .object _ (some c) _ => c
  | _ => .undefined

/-- Trace of one `retry` engine run: the settled outcome, the number of
times the task was invoked, and the list of attempt indices passed to
the beforeRetry callback, in call order. -/
structure RetryTrace (E T : Type) where
  result : Except E T
  taskCalls : Nat
  beforeRetryAttempts : List Nat

/-- The list `[a, a+1, ..., a+m-1]` of attempt indices. -/
def attemptList : Nat → Nat → List Nat
  | _, 0 => []
  | a, m + 1 => a :: attemptList (a + 1) m

namespace Util

/-- Shallow embedding of `retryBase` from src/src/util.ts.

    function retryBase(task, attempt, beforeRetry) {
      return task().catch((e) =>
        beforeRetry(attempt, e).then(() =>
          retryBase(task, attempt + 1, beforeRetry)));
    }

`task i` is the outcome of the i-th invocation of `task()` (the attempt
counter equals the invocation index, since it is incremented exactly once
per failed invocation).  The extra fuel argument bounds the recursion
depth; the function also returns the observable call trace. -/
def retryBase {E T : Type} (task : Nat → Except E T)
    (beforeRetry : Nat → E → Except E Unit) :
    Nat → Nat → Option (RetryTrace E T)
  | 0, _ => none
  | fuel + 1, attempt =>
    match task attempt with
    | .ok v => some ⟨.ok v, 1, []⟩
    | .error e =>
      match beforeRetry attempt e with
      | .error r => some ⟨.error r, 1, [attempt]⟩
      | .ok _ =>
        (retryBase task beforeRetry fuel (attempt + 1)).map
          (fun t => ⟨t.result, t.taskCalls + 1, attempt :: t.beforeRetryAttempts⟩)

/-- Shallow embedding of `retry` from src/src/util.ts:
`retry(task, beforeRetry) = retryBase(task, 0, beforeRetry)`. -/
def retry {E T : Type} (task : Nat → Except E T)
    (beforeRetry : Nat → E → Except E Unit) (fuel : Nat) :
    Option (RetryTrace E T) :=
  retryBase task beforeRetry fuel 0

/-- Shallow embedding of `backoffDelay` from src/src/util.ts.

    const exponentialDelay = initialDelay * Math.pow(multiplier, attempt);
    const cappedDelay = Math.min(exponentialDelay, maxDelay);
    const jitter = cappedDelay * 0.25 * (Math.random() * 2 - 1);
    return Math.floor(cappedDelay + jitter);

Number arithmetic is idealised over the rationals (0.25 is exact in both)
and the Math.random draw is the explicit parameter `u`. -/
def backoffDelay (attempt : Nat) (initialDelay maxDelay multiplier : ℚ)
    (u : ℚ) : ℤ :=
  let exponentialDelay := initialDelay * multiplier ^ attempt
  let cappedDelay := min exponentialDelay maxDelay
  let jitter := cappedDelay * (1 / 4) * (u * 2 - 1)
  ⌊cappedDelay + jitter⌋

/-- Shallow embedding of `asNotRetryError` from src/src/util.ts: a fresh
Error with the fixed message, the original value as cause, and the hidden
tag set to the boolean true. -/
def asNotRetryError (e : JSVal) : JSVal :=
  .object (some "Not retryable error") (some e) (some (.boolean true))

/-- Shallow embedding of `isNotRetryError` from src/src/util.ts:
`((e as any) || {})[notRetryErrorSymbol] === true`. -/
def isNotRetryError (e : JSVal) : Bool :=
  match notRetryTagOf (jsOr e (.object none none none)) with
  | some (.boolean true) => true
  | _ => false

end Util

namespace Mw

/-- Shallow embedding of `createRetryBase` from src/src/middleware.ts:

    (f, o) => (...params) =>
      retry(() => f(...params), (attempt, err) => beforeRetry(attempt, err, o))

`f params i` is the outcome of the i-th invocation of `f(...params)`;
the wrapped call returns the retry trace for a given fuel. -/
def createRetryBase {Cfg P T : Type}
    (beforeRetry : Nat → JSVal → Cfg → Except JSVal Unit)
    (f : P → Nat → Except JSVal T) (o : Cfg) :
    P → Nat → Option (RetryTrace JSVal T) :=
  fun params fuel =>
    Util.retry (fun i => f params i)
      (fun attempt err => beforeRetry attempt err o) fuel

/-- Shallow embedding of `createRetry` from src/src/middleware.ts.  The
`await sleep(backoffDelay(attempt, 1000, 10000, 2), o.signal)` line always
resolves (`sleep` never rejects; the signal only shortens the wait), so
that branch of the callback is `.ok ()`. -/
def createRetry {Cfg P T : Type} (maxRetries : Nat) :
    (P → Nat → Except JSVal T) → Cfg → P → Nat → Option (RetryTrace JSVal T) :=
  createRetryBase (fun attempt error _o =>
    if Util.isNotRetryError error then .error (causeOf error)
    else if maxRetries ≤ attempt then .error error
    else .ok ())

end Mw

/-- Model of a URLSearchParams value as the core observes it: the code
under src/ only reads its `size` and its serialisation `toString()`. -/
structure SearchParams where
  size : Nat
  serialized : String

/-- Model of the configuration object (the `Options`/`Client` shape from
src/src/types.ts).  Opaque payloads are type parameters: `Sig` abort
signals, `MW` middleware values, `Tr` transport functions, `PF` the
pipe/add/with chaining helpers, and `R` the remaining RequestInit
passthrough fields.  `with` is a Lean keyword, so that field is named
`withFn`.  `none` models an absent (undefined) field. -/
structure Cfg (Sig MW Tr PF R : Type) where
  url : Option String
  baseUrl : Option String
  searchParams : Option SearchParams
  method : Option String
  headers : Option (List (String × String))
  body : Option String
  signal : Option Sig
  fetch : Option Tr
  middlewares : Option (List MW)
  pipe : Option PF
  add : Option PF
  withFn : Option PF
  rest : R

/-- The option bag produced by the rest-destructuring in `toFetchParams`:
every configuration field except baseUrl, url, searchParams, fetch,
middlewares, pipe, add and with. -/
structure FetchOptions (Sig R : Type) where
  method : Option String
  headers : Option (List (String × String))
  body : Option String
  signal : Option Sig
  rest : R

/-- JavaScript object update `{...headers, [name]: value}` on the
(unique-key) association-list model of a plain object: an existing key
keeps its position and gets the new value, a new key is appended. -/
def setKey : List (String × String) → String → String → List (String × String)
  | [], k, v => [(k, v)]
  | (k₀, v₀) :: t, k, v =>
    if k₀ = k then (k, v) :: t else (k₀, v₀) :: setKey t k v

namespace Config

variable {Sig MW Tr PF R : Type}

/-- Builder `url` from src/src/config.ts: `{...o, url}`. -/
def url (o : Cfg Sig MW Tr PF R) (u : String) : Cfg Sig MW Tr PF R :=
  { o with url := some u }

/-- Builder `baseUrl` from src/src/config.ts: `{...o, baseUrl}`. -/
def baseUrl (o : Cfg Sig MW Tr PF R) (b : String) : Cfg Sig MW Tr PF R :=
  { o with baseUrl := some b }

/-- Builder `method` from src/src/config.ts: `{...o, method}`. -/
def method (o : Cfg Sig MW Tr PF R) (m : String) : Cfg Sig MW Tr PF R :=
  { o with method := some m }

/-- Builder `headers` from src/src/config.ts: `{...o, headers}`. -/
def headers (o : Cfg Sig MW Tr PF R) (h : List (String × String)) :
    Cfg Sig MW Tr PF R :=
  { o with headers := some h }

/-- Builder `header` from src/src/config.ts:
`{...o, headers: {...o.headers, [name]: value}}` (spreading an undefined
headers field yields the empty object). -/
def header (o : Cfg Sig MW Tr PF R) (name value : String) :
    Cfg Sig MW Tr PF R :=
  { o with headers := some (setKey (o.headers.getD []) name value) }

/-- Builder `body` from src/src/config.ts: `{...o, body: data}`. -/
def body (o : Cfg Sig MW Tr PF R) (data : String) : Cfg Sig MW Tr PF R :=
  { o with body := some data }

/-- Builder `signal` from src/src/config.ts: `{...o, signal}`. -/
def signal (o : Cfg Sig MW Tr PF R) (s : Sig) : Cfg Sig MW Tr PF R :=
  { o with signal := some s }

/-- Builder `middlewares` from src/src/config.ts:
`{...o, middlewares: newMiddlewares}`. -/
def middlewares (o : Cfg Sig MW Tr PF R) (newMiddlewares : List MW) :
    Cfg Sig MW Tr PF R :=
  { o with middlewares := some newMiddlewares }

/-- Builder `use` from src/src/config.ts:
`{...o, middlewares: [...(o.middlewares || []), middleware]}`. -/
def use (o : Cfg Sig MW Tr PF R) (middleware : MW) : Cfg Sig MW Tr PF R :=
  { o with middlewares := some (o.middlewares.getD [] ++ [middleware]) }

/-- Builder `retry` from src/src/config.ts:
`use(o, createRetry(maxRetries))`.  Because `Cfg` is parametric in the
middleware payload type, the value produced by `createRetry` is supplied
through the parameter `mkRetry`. -/
def retry (mkRetry : Nat → MW) (o : Cfg Sig MW Tr PF R) (maxRetries : Nat) :
    Cfg Sig MW Tr PF R :=
  use o (mkRetry maxRetries)

end Config

/-- Model of the single-character-substring check `finalUrl.includes('?')`. -/
def containsQM (s : String) : Bool :=
  s.data.contains '?'

namespace Fetch

variable {Sig MW Tr PF R : Type}

/-- The URL-building part of `toFetchParams` (src/unnamed/part_003):

    let finalUrl = baseUrl ? `${baseUrl}${url}` : url;
    if (searchParams && searchParams.size > 0) {
      const separator = finalUrl.includes('?') ? '&' : '?';
      finalUrl = `${finalUrl}${separator}${searchParams.toString()}`;
    }

An empty baseUrl string is falsy, hence the inner conditional. -/
def toFetchUrl (o : Cfg Sig MW Tr PF R) : String :=
  let u := o.url.getD ""
  let finalUrl :=
    match o.baseUrl with
    | some b => if b = "" then u else b ++ u
    | none => u
  match o.searchParams with
  | some sp =>
    if 0 < sp.size then
      finalUrl ++ (if containsQM finalUrl then "&" else "?") ++ sp.serialized
    else finalUrl
  | none => finalUrl

/-- Shallow embedding of `toFetchParams` (src/unnamed/part_003): the final
URL paired with the rest-destructured option bag, which drops exactly
baseUrl, url, searchParams, fetch, middlewares, pipe, add and with. -/
def toFetchParams (o : Cfg Sig MW Tr PF R) : String × FetchOptions Sig R :=
  (toFetchUrl o, ⟨o.method, o.headers, o.body, o.signal, o.rest⟩)

/-- Shallow embedding of `applyMiddlewares` (src/unnamed/part_003):

    const middlewares = o.middlewares || [];
    return middlewares.reduce((f, mw) => mw(f, o), f);

A middleware receives the configuration object it is stored on; because
that is a negative self-reference, the embedding abstracts the
configuration type `O` and the projection `getMws` reading the
(possibly absent) middleware list from it. -/
def applyMiddlewares {C O : Type} (getMws : O → Option (List (C → O → C)))
    (f : C) (o : O) : C :=
  ((getMws o).getD []).foldl (fun g mw => mw g o) f

/-- Shallow embedding of `fetch` (src/unnamed/part_003):

    const f = o.fetch || globalThis.fetch;
    return applyMiddlewares(f, o)(...toFetchParams(o));

over the `Cfg` model.  `run` interprets a stored middleware payload as
the wrapping function it denotes, `defaultFetch` is the process-wide
default transport and `toCall` turns a transport value into a callable;
`Res` is the transport result type. -/
def fetchRun {Res : Type}
    (run : MW → ((String × FetchOptions Sig R) → Res) →
      Cfg Sig MW Tr PF R → ((String × FetchOptions Sig R) → Res))
    (defaultFetch : Tr) (toCall : Tr → (String × FetchOptions Sig R) → Res)
    (o : Cfg Sig MW Tr PF R) : Res :=
  applyMiddlewares (fun o₂ => (Cfg.middlewares o₂).map (fun l => l.map run))
    (toCall (o.fetch.getD defaultFetch)) o (toFetchParams o)

/-- Modelled from the claim wording of C8 (for comparison with
`toFetchUrl`): the address is the concatenation of base address and path,
and the query separator is chosen by whether the path alone already
contains a question mark. -/
def addressPathSeparatorSpec (o : Cfg Sig MW Tr PF R) : String :=
  let u := o.url.getD ""
  let addr := o.baseUrl.getD "" ++ u
  match o.searchParams with
  | some sp =>
    if sp.size = 0 then addr
    else addr ++ (if containsQM u then "&" else "?") ++ sp.serialized
  | none => addr

/-- Modelled from the amended wording of C8: the address is the
concatenation of base address and path, and the query separator is chosen
by whether that concatenated address already contains a question mark. -/
def addressCombinedSeparatorSpec (o : Cfg Sig MW Tr PF R) : String :=
  let addr := o.baseUrl.getD "" ++ o.url.getD ""
  match o.searchParams with
  | some sp =>
    if sp.size = 0 then addr
    else addr ++ (if containsQM addr then "&" else "?") ++ sp.serialized
  | none => addr

end Fetch

/-! ## Helper lemmas about the retry engine -/

/-- If, starting at attempt `a`, the task fails on `m` consecutive
invocations with beforeRetry resolving each time, and the next invocation
succeeds with `v`, then the engine resolves with `v`, having invoked the
task `m + 1` times and beforeRetry at attempts `a, ..., a+m-1`. -/
theorem retryBase_succeeds {E T : Type} (task : Nat → Except E T)
    (br : Nat → E → Except E Unit) (err : Nat → E) (v : T) :
    ∀ (m a fuel : Nat),
      (∀ i, i < m → task (a + i) = Except.error (err (a + i)) ∧
        br (a + i) (err (a + i)) = Except.ok ()) →
      task (a + m) = Except.ok v → m + 1 ≤ fuel →
      Util.retryBase task br fuel a =
        some ⟨Except.ok v, m + 1, attemptList a m⟩ := by
  intro m
  induction m with
  | zero =>
    intro a fuel _ hsucc hfuel
    obtain ⟨f, rfl⟩ : ∃ f, fuel = f + 1 := ⟨fuel - 1, by omega⟩
    rw [Nat.add_zero] at hsucc
    simp [Util.retryBase, hsucc, attemptList]
  | succ m ih =>
    intro a fuel hfail hsucc hfuel
    obtain ⟨f, rfl⟩ : ∃ f, fuel = f + 1 := ⟨fuel - 1, by omega⟩
    have h0 := hfail 0 (Nat.succ_pos m)
    rw [Nat.add_zero] at h0
    have hrec := ih (a + 1) f ?hf ?hs (by omega)
    case hf =>
      intro i hi
      have h := hfail (i + 1) (by omega)
      rwa [show a + (i + 1) = a + 1 + i by omega] at h
    case hs =>
      rw [show a + 1 + m = a + (m + 1) by omega]
      exact hsucc
    simp only [Util.retryBase, h0.1, h0.2, hrec, Option.map_some']
    rfl

/-- Claim C1: for every task that rejects on its first two invocations and
resolves with `v` on the third, and every beforeRetry that always
resolves, `retry task beforeRetry` resolves with `v`, the task is invoked
exactly 3 times, and beforeRetry is invoked exactly twice with attempt
arguments 0 then 1 (the attempt index counts prior failures, 0-indexed). -/
theorem retry_two_failures_then_success {E T : Type} (task : Nat → Except E T)
    (br : Nat → E → Except E Unit) (e₀ e₁ : E) (v : T) (fuel : Nat)
    (h0 : task 0 = Except.error e₀) (h1 : task 1 = Except.error e₁)
    (h2 : task 2 = Except.ok v) (hbr : ∀ a e, br a e = Except.ok ())
    (hfuel : 3 ≤ fuel) :
    Util.retry task br fuel = some ⟨Except.ok v, 3, [0, 1]⟩ := by
  have h := retryBase_succeeds task br (fun i => if i = 0 then e₀ else e₁)
    v 2 0 fuel ?_ h2 hfuel
  · exact h
  · intro i hi
    match i, hi with
    | 0, _ => exact ⟨h0, hbr 0 e₀⟩
    | 1, _ => exact ⟨h1, hbr 1 e₁⟩

/-- If, starting at attempt `a`, the task fails on `m` consecutive
invocations with beforeRetry resolving each time, the next invocation
also fails, and that beforeRetry call rejects with `r`, then the engine
rejects with `r`, having invoked the task exactly `m + 1` times and
beforeRetry at attempts `a, ..., a+m`. -/
theorem retryBase_rejects {E T : Type} (task : Nat → Except E T)
    (br : Nat → E → Except E Unit) (err : Nat → E) (r : E) :
    ∀ (m a fuel : Nat),
      (∀ i, i < m → task (a + i) = Except.error (err (a + i)) ∧
        br (a + i) (err (a + i)) = Except.ok ()) →
      task (a + m) = Except.error (err (a + m)) →
      br (a + m) (err (a + m)) = Except.error r → m + 1 ≤ fuel →
      Util.retryBase task br fuel a =
        some ⟨Except.error r, m + 1, attemptList a (m + 1)⟩ := by
  intro m
  induction m with
  | zero =>
    intro a fuel _ hlast hrej hfuel
    obtain ⟨f, rfl⟩ : ∃ f, fuel = f + 1 := ⟨fuel - 1, by omega⟩
    rw [Nat.add_zero] at hlast hrej
    simp [Util.retryBase, hlast, hrej, attemptList]
  | succ m ih =>
    intro a fuel hfail hlast hrej hfuel
    obtain ⟨f, rfl⟩ : ∃ f, fuel = f + 1 := ⟨fuel - 1, by omega⟩
    have h0 := hfail 0 (Nat.succ_pos m)
    rw [Nat.add_zero] at h0
    have hrec := ih (a + 1) f ?hf ?hl ?hr (by omega)
    case hf =>
      intro i hi
      have h := hfail (i + 1) (by omega)
      rwa [show a + (i + 1) = a + 1 + i by omega] at h
    case hl =>
      rw [show a + 1 + m = a + (m + 1) by omega]
      exact hlast
    case hr =>
      rw [show a + 1 + m = a + (m + 1) by omega]
      exact hrej
    simp only [Util.retryBase, h0.1, h0.2, hrec, Option.map_some']
    rfl

/-- Witness for C1: a task that fails on invocations 0 and 1 and then
resolves with 42, with an always-resolving beforeRetry. -/
theorem retry_two_failures_then_success_witness :
    Util.retry (fun i => if i < 2 then Except.error i else Except.ok 42)
      (fun _ _ => Except.ok ()) 3 = some ⟨Except.ok 42, 3, [0, 1]⟩ :=
  retry_two_failures_then_success
    (fun i => if i < 2 then Except.error i else Except.ok 42)
    (fun _ _ => Except.ok ()) 0 1 42 3 rfl rfl rfl (fun _ _ => rfl)
    (by omega)

/-- Claim C2: whenever the run of `retry task beforeRetry` reaches an
invocation `k` whose task call rejects and whose subsequent beforeRetry
call rejects with reason `r`, the overall result rejects with that same
`r` (which need not equal the task rejection `err k`), and the task is
not invoked again afterwards: it is invoked exactly `k + 1` times. -/
theorem retry_beforeRetry_rejection_propagates {E T : Type}
    (task : Nat → Except E T) (br : Nat → E → Except E Unit)
    (err : Nat → E) (r : E) (k fuel : Nat)
    (hfail : ∀ i, i ≤ k → task i = Except.error (err i))
    (hok : ∀ i, i < k → br i (err i) = Except.ok ())
    (hrej : br k (err k) = Except.error r)
    (hfuel : k + 1 ≤ fuel) :
    Util.retry task br fuel =
      some ⟨Except.error r, k + 1, attemptList 0 (k + 1)⟩ := by
  have h := retryBase_rejects task br err r k 0 fuel ?_ ?_ ?_ hfuel
  · exact h
  · intro i hi
    rw [Nat.zero_add]
    exact ⟨hfail i (by omega), hok i hi⟩
  · rw [Nat.zero_add]
    exact hfail k (by omega)
  · rw [Nat.zero_add]
    exact hrej

/-- Witness for C2: the task always rejects, beforeRetry resolves on
attempts 0 and 1 and rejects with 99 on attempt 2 (its third call); the
overall run rejects with 99 after exactly 3 task invocations. -/
theorem retry_beforeRetry_rejection_propagates_witness :
    Util.retry (fun i => (Except.error i : Except Nat Nat))
      (fun a _ => if a < 2 then Except.ok () else Except.error 99) 3 =
      some ⟨Except.error 99, 3, [0, 1, 2]⟩ :=
  retry_beforeRetry_rejection_propagates
    (fun i => (Except.error i : Except Nat Nat))
    (fun a _ => if a < 2 then Except.ok () else Except.error 99)
    (fun i => i) 99 2 3 (fun _ _ => rfl) (fun i hi => if_pos hi) rfl
    (by omega)

/-- Claim C3: wrapped by the middleware `createRetry 3`, a transport call
that always rejects with an untagged error is invoked exactly 4 times
(1 initial attempt plus 3 retries) and the wrapped call finally rejects
with the last transport error, re-thrown verbatim once the attempt index
reaches maxRetries. -/
theorem createRetry_exhausted_rejects_last_error {Cfg P T : Type}
    (f : P → Nat → Except JSVal T) (o : Cfg) (params : P)
    (err : Nat → JSVal) (fuel : Nat)
    (hfail : ∀ i, f params i = Except.error (err i))
    (hplain : ∀ i, Util.isNotRetryError (err i) = false)
    (hfuel : 4 ≤ fuel) :
    Mw.createRetry 3 f o params fuel =
      some ⟨Except.error (err 3), 4, [0, 1, 2, 3]⟩ := by
  have h := retryBase_rejects (fun i => f params i)
    (fun attempt e =>
      if Util.isNotRetryError e then Except.error (causeOf e)
      else if 3 ≤ attempt then Except.error e else Except.ok ())
    err (err 3) 3 0 fuel ?_ ?_ ?_ hfuel
  · exact h
  · intro i hi
    rw [Nat.zero_add]
    refine ⟨hfail i, ?_⟩
    show (if Util.isNotRetryError (err i) then Except.error (causeOf (err i))
      else if 3 ≤ i then Except.error (err i) else Except.ok ()) = Except.ok ()
    rw [hplain i, if_neg (by simp), if_neg (by omega)]
  · rw [Nat.zero_add]
    exact hfail 3
  · rw [Nat.zero_add]
    show (if Util.isNotRetryError (err 3) then Except.error (causeOf (err 3))
      else if 3 ≤ 3 then Except.error (err 3) else Except.ok ()) =
        Except.error (err 3)
    rw [hplain 3, if_neg (by simp), if_pos (by omega)]

/-- Witness for C3: a transport that always rejects with the plain string
error "boom" under `createRetry 3` is invoked 4 times and the wrapped
call rejects with that error. -/
theorem createRetry_exhausted_rejects_last_error_witness :
    Mw.createRetry 3
      (fun (_ : Unit) (_ : Nat) => (Except.error (JSVal.string "boom") :
        Except JSVal Unit)) () () 4 =
      some ⟨Except.error (JSVal.string "boom"), 4, [0, 1, 2, 3]⟩ :=
  createRetry_exhausted_rejects_last_error
    (fun _ _ => Except.error (JSVal.string "boom")) () ()
    (fun _ => JSVal.string "boom") 4 (fun _ => rfl) (fun _ => rfl)
    (by omega)

/-- Claim C4: wrapped by the middleware `createRetry n` (any `n`), a
transport call whose every rejection is `asNotRetryError c` is invoked
exactly once, and the wrapped call rejects with the untagged original
cause `c`, bypassing the remaining retry budget. -/
theorem createRetry_notRetryable_single_invocation {Cfg P T : Type}
    (f : P → Nat → Except JSVal T) (o : Cfg) (params : P) (c : JSVal)
    (n fuel : Nat)
    (hfail : ∀ i, f params i = Except.error (Util.asNotRetryError c))
    (hfuel : 1 ≤ fuel) :
    Mw.createRetry n f o params fuel =
      some ⟨Except.error c, 1, [0]⟩ := by
  have h := retryBase_rejects (fun i => f params i)
    (fun attempt e =>
      if Util.isNotRetryError e then Except.error (causeOf e)
      else if n ≤ attempt then Except.error e else Except.ok ())
    (fun _ => Util.asNotRetryError c) c 0 0 fuel
    (fun i hi => absurd hi (by omega)) ?_ ?_ hfuel
  · exact h
  · rw [Nat.zero_add]
    exact hfail 0
  · rfl

/-- Witness for C4: a transport always rejecting with the tagged wrapper
of the string "fatal" under `createRetry 5` is invoked once and the
wrapped call rejects with the untagged cause. -/
theorem createRetry_notRetryable_single_invocation_witness :
    Mw.createRetry 5
      (fun (_ : Unit) (_ : Nat) =>
        (Except.error (Util.asNotRetryError (JSVal.string "fatal")) :
          Except JSVal Unit)) () () 1 =
      some ⟨Except.error (JSVal.string "fatal"), 1, [0]⟩ :=
  createRetry_notRetryable_single_invocation
    (fun _ _ => Except.error (Util.asNotRetryError (JSVal.string "fatal")))
    () () (JSVal.string "fatal") 5 1 (fun _ => rfl) (by omega)

/-- Claim C5: `applyMiddlewares` is the left fold of the configuration
middleware list with the terminal call as initial accumulator and step
`acc ↦ mw acc o`; with an absent or empty middleware list it returns the
terminal call unchanged, and with list `[A, B]` it returns
`B (A f o) o`, so index 0 is innermost and the last middleware is
outermost. -/
theorem applyMiddlewares_foldl_spec {C O : Type}
    (getMws : O → Option (List (C → O → C))) (f : C) (o : O) :
    Fetch.applyMiddlewares getMws f o =
        ((getMws o).getD []).foldl (fun g mw => mw g o) f
      ∧ (getMws o = none → Fetch.applyMiddlewares getMws f o = f)
      ∧ (getMws o = some [] → Fetch.applyMiddlewares getMws f o = f)
      ∧ ∀ A B : C → O → C, getMws o = some [A, B] →
          Fetch.applyMiddlewares getMws f o = B (A f o) o := by
  refine ⟨rfl, ?_, ?_, ?_⟩
  · intro h
    simp [Fetch.applyMiddlewares, h]
  · intro h
    simp [Fetch.applyMiddlewares, h]
  · intro A B h
    simp [Fetch.applyMiddlewares, h]

/-- Witness for C5: over natural numbers, with middlewares
`A = fun n _ => n + 1` (index 0) and `B = fun n m => n * m`, the fold
applies A innermost; with no middleware list the terminal call 3 is
returned unchanged. -/
theorem applyMiddlewares_foldl_spec_witness :
    Fetch.applyMiddlewares
        (fun _ : Nat => some [fun n _ => n + 1, fun n m => n * m]) 3 5 =
      (fun (n m : Nat) => n * m) ((fun (n : Nat) (_ : Nat) => n + 1) 3 5) 5
    ∧ Fetch.applyMiddlewares
        (fun _ : Nat => (none : Option (List (Nat → Nat → Nat)))) 3 5 = 3 :=
  ⟨(applyMiddlewares_foldl_spec
      (fun _ : Nat => some [fun n _ => n + 1, fun n m => n * m]) 3 5).2.2.2
      _ _ rfl,
    (applyMiddlewares_foldl_spec
      (fun _ : Nat => (none : Option (List (Nat → Nat → Nat)))) 3 5).2.1 rfl⟩

/-- Claim C7: `isNotRetryError` recognises exactly the values produced by
`asNotRetryError`: it is true on every tagged wrapper, and false (the
embedding is total, so it cannot throw) on null, undefined, any value
whose hidden tag is absent (in particular any untagged original value),
and any value whose tag is present but not exactly the boolean true. -/
theorem isNotRetryError_spec :
    (∀ e, Util.isNotRetryError (Util.asNotRetryError e) = true)
    ∧ Util.isNotRetryError JSVal.null = false
    ∧ Util.isNotRetryError JSVal.undefined = false
    ∧ (∀ v, notRetryTagOf v = none → Util.isNotRetryError v = false)
    ∧ (∀ v t, notRetryTagOf v = some t → t ≠ JSVal.boolean true →
        Util.isNotRetryError v = false) := by
  refine ⟨fun e => rfl, rfl, rfl, ?_, ?_⟩
  · intro v h
    have htag : notRetryTagOf (jsOr v (JSVal.object none none none)) = none := by
      cases v with
      | object m c t => simpa [jsOr, jsTruthy] using h
      | null => rfl
      | undefined => rfl
      | boolean b => cases b <;> rfl
      | number n =>
        unfold jsOr
        split <;> rfl
      | string s =>
        unfold jsOr
        split <;> rfl
    unfold Util.isNotRetryError
    rw [htag]
  · intro v t h hne
    cases v with
    | null => exact Option.noConfusion h
    | undefined => exact Option.noConfusion h
    | boolean b => exact Option.noConfusion h
    | number n => exact Option.noConfusion h
    | string s => exact Option.noConfusion h
    | object m c tg =>
      have h2 : tg = some t := h
      subst h2
      cases t with
      | boolean b =>
        cases b with
        | true => exact absurd rfl hne
        | false => rfl
      | null => rfl
      | undefined => rfl
      | number n => rfl
      | string s => rfl
      | object a b2 c2 => rfl

/-- Witness for C7: the tagged wrapper of a string is recognised, a plain
number is not, and an object whose tag is explicitly the boolean false is
not. -/
theorem isNotRetryError_spec_witness :
    Util.isNotRetryError (Util.asNotRetryError (JSVal.string "x")) = true
    ∧ Util.isNotRetryError (JSVal.number 7) = false
    ∧ Util.isNotRetryError
        (JSVal.object none none (some (JSVal.boolean false))) = false :=
  ⟨isNotRetryError_spec.1 (JSVal.string "x"),
    isNotRetryError_spec.2.2.2.1 (JSVal.number 7) rfl,
    isNotRetryError_spec.2.2.2.2
      (JSVal.object none none (some (JSVal.boolean false)))
      (JSVal.boolean false) rfl (by simp)⟩

/-- Claim C9: every builder returns a structural copy of the input
configuration with only the targeted field changed; since the embedding
is pure, the input value itself is untouched, and the frame condition is
expressed by listing every untouched field of the result as the
corresponding field of the input. -/
theorem builders_copy_update {Sig MW Tr PF R : Type}
    (o : Cfg Sig MW Tr PF R) (u b m bd k v : String)
    (hs : List (String × String)) (sg : Sig) (mws : List MW) (mw : MW)
    (mkRetry : Nat → MW) (n : Nat) :
    Config.url o u = ⟨some u, o.baseUrl, o.searchParams, o.method,
        o.headers, o.body, o.signal, o.fetch, o.middlewares, o.pipe,
        o.add, o.withFn, o.rest⟩
    ∧ Config.baseUrl o b = ⟨o.url, some b, o.searchParams, o.method,
        o.headers, o.body, o.signal, o.fetch, o.middlewares, o.pipe,
        o.add, o.withFn, o.rest⟩
    ∧ Config.method o m = ⟨o.url, o.baseUrl, o.searchParams, some m,
        o.headers, o.body, o.signal, o.fetch, o.middlewares, o.pipe,
        o.add, o.withFn, o.rest⟩
    ∧ Config.headers o hs = ⟨o.url, o.baseUrl, o.searchParams, o.method,
        some hs, o.body, o.signal, o.fetch, o.middlewares, o.pipe,
        o.add, o.withFn, o.rest⟩
    ∧ Config.header o k v = ⟨o.url, o.baseUrl, o.searchParams, o.method,
        some (setKey (o.headers.getD []) k v), o.body, o.signal, o.fetch,
        o.middlewares, o.pipe, o.add, o.withFn, o.rest⟩
    ∧ Config.body o bd = ⟨o.url, o.baseUrl, o.searchParams, o.method,
        o.headers, some bd, o.signal, o.fetch, o.middlewares, o.pipe,
        o.add, o.withFn, o.rest⟩
    ∧ Config.signal o sg = ⟨o.url, o.baseUrl, o.searchParams, o.method,
        o.headers, o.body, some sg, o.fetch, o.middlewares, o.pipe,
        o.add, o.withFn, o.rest⟩
    ∧ Config.middlewares o mws = ⟨o.url, o.baseUrl, o.searchParams,
        o.method, o.headers, o.body, o.signal, o.fetch, some mws, o.pipe,
        o.add, o.withFn, o.rest⟩
    ∧ Config.use o mw = ⟨o.url, o.baseUrl, o.searchParams, o.method,
        o.headers, o.body, o.signal, o.fetch,
        some (o.middlewares.getD [] ++ [mw]), o.pipe, o.add, o.withFn,
        o.rest⟩
    ∧ Config.retry mkRetry o n = ⟨o.url, o.baseUrl, o.searchParams,
        o.method, o.headers, o.body, o.signal, o.fetch,
        some (o.middlewares.getD [] ++ [mkRetry n]), o.pipe, o.add,
        o.withFn, o.rest⟩ :=
  ⟨rfl, rfl, rfl, rfl, rfl, rfl, rfl, rfl, rfl, rfl⟩

/-- Claim C10: the option bag handed to the transport call retains every
configuration field except exactly baseUrl, url, searchParams, fetch,
middlewares and the chain helpers; in particular the cancellation signal
stays in the bag, and with an absent or empty middleware list the
executor invokes the transport itself with exactly that bag. -/
theorem toFetchParams_option_bag {Sig MW Tr PF R Res : Type}
    (o : Cfg Sig MW Tr PF R)
    (run : MW → ((String × FetchOptions Sig R) → Res) →
      Cfg Sig MW Tr PF R → ((String × FetchOptions Sig R) → Res))
    (defaultFetch : Tr)
    (toCall : Tr → (String × FetchOptions Sig R) → Res) :
    (Fetch.toFetchParams o).2 =
        ⟨o.method, o.headers, o.body, o.signal, o.rest⟩
    ∧ (Fetch.toFetchParams o).2.signal = o.signal
    ∧ (o.middlewares = none →
        Fetch.fetchRun run defaultFetch toCall o =
          toCall (o.fetch.getD defaultFetch) (Fetch.toFetchParams o))
    ∧ (o.middlewares = some [] →
        Fetch.fetchRun run defaultFetch toCall o =
          toCall (o.fetch.getD defaultFetch) (Fetch.toFetchParams o)) := by
  refine ⟨rfl, rfl, ?_, ?_⟩
  · intro h
    simp [Fetch.fetchRun, Fetch.applyMiddlewares, h]
  · intro h
    simp [Fetch.fetchRun, Fetch.applyMiddlewares, h]

/-- Witness for C10: a concrete configuration with no middlewares; the
executor hands the transport the pair produced by `toFetchParams`, whose
bag keeps the signal value 9. -/
theorem toFetchParams_option_bag_witness :
    (Fetch.toFetchParams
        (⟨some "/p", none, none, some "GET", none, none, some 9, none,
          none, none, none, none, 0⟩ : Cfg Nat Nat Nat Nat Nat)).2.signal =
      some 9
    ∧ Fetch.fetchRun (fun _ g _ => g) 0 (fun _ args => args)
        (⟨some "/p", none, none, some "GET", none, none, some 9, none,
          none, none, none, none, 0⟩ : Cfg Nat Nat Nat Nat Nat) =
      (fun _ args => args : Nat → (String × FetchOptions Nat Nat) →
          String × FetchOptions Nat Nat)
        ((Option.none).getD 0)
        (Fetch.toFetchParams
          (⟨some "/p", none, none, some "GET", none, none, some 9, none,
            none, none, none, none, 0⟩ : Cfg Nat Nat Nat Nat Nat)) :=
  ⟨(toFetchParams_option_bag
      (⟨some "/p", none, none, some "GET", none, none, some 9, none,
        none, none, none, none, 0⟩ : Cfg Nat Nat Nat Nat Nat)
      (fun _ g _ => g) 0 (fun _ args => args)).2.1,
    (toFetchParams_option_bag
      (⟨some "/p", none, none, some "GET", none, none, some 9, none,
        none, none, none, none, 0⟩ : Cfg Nat Nat Nat Nat Nat)
      (fun _ g _ => g) 0 (fun _ args => args)).2.2.1 rfl⟩

/-- Counterexample to C6 as stated: at attempt 0 with initialDelay 1001,
maxDelay 10000, multiplier 2 and random draw 0, the capped delay is 1001,
the jitter is -250.25, and the result floor(750.75) = 750 lies strictly
below the claimed closed lower bound 0.75 * capped = 750.75. -/
theorem backoffDelay_lower_bound_counterexample :
    Util.backoffDelay 0 1001 10000 2 0 = 750
    ∧ ¬ ((3 / 4 : ℚ) * min ((1001 : ℚ) * 2 ^ (0 : ℕ)) 10000 ≤
        ((Util.backoffDelay 0 1001 10000 2 0 : ℤ) : ℚ)) := by
  have hmin : min ((1001 : ℚ) * 2 ^ (0 : ℕ)) 10000 = 1001 := by norm_num
  have h1 : Util.backoffDelay 0 1001 10000 2 0 = 750 := by
    simp only [Util.backoffDelay, hmin]
    rw [show (1001 : ℚ) + 1001 * (1 / 4) * (0 * 2 - 1) = 3003 / 4 by
      norm_num]
    rw [Int.floor_eq_iff]
    constructor <;> push_cast <;> norm_num
  refine ⟨h1, ?_⟩
  rw [h1, hmin]
  push_cast
  norm_num

/-- Claim C6, amended: for nonnegative parameters and every random draw
u with 0 <= u < 1, the result of `backoffDelay` is an integer lying
between floor(0.75 * capped) and 1.25 * capped, where capped is
min(initialDelay * multiplier ^ attempt, maxDelay).  (As stated the claim
fails: the final floor can push the result strictly below 0.75 * capped
whenever that bound is not an integer, and for negative parameters the
claimed range is empty.) -/
theorem backoffDelay_jitter_range (attempt : ℕ)
    (initialDelay maxDelay multiplier u : ℚ)
    (hi : 0 ≤ initialDelay) (hm : 0 ≤ maxDelay) (hmul : 0 ≤ multiplier)
    (hu0 : 0 ≤ u) (hu1 : u < 1) :
    ⌊(3 / 4 : ℚ) * min (initialDelay * multiplier ^ attempt) maxDelay⌋ ≤
        Util.backoffDelay attempt initialDelay maxDelay multiplier u
    ∧ ((Util.backoffDelay attempt initialDelay maxDelay multiplier u : ℤ) : ℚ) ≤
        (5 / 4 : ℚ) * min (initialDelay * multiplier ^ attempt) maxDelay := by
  have hc : (0 : ℚ) ≤ min (initialDelay * multiplier ^ attempt) maxDelay :=
    le_min (mul_nonneg hi (pow_nonneg hmul attempt)) hm
  have hb : Util.backoffDelay attempt initialDelay maxDelay multiplier u =
      ⌊min (initialDelay * multiplier ^ attempt) maxDelay +
        min (initialDelay * multiplier ^ attempt) maxDelay * (1 / 4) *
          (u * 2 - 1)⌋ := rfl
  obtain ⟨c, hcdef⟩ :
      ∃ c, min (initialDelay * multiplier ^ attempt) maxDelay = c :=
    ⟨_, rfl⟩
  rw [hcdef] at hc hb ⊢
  rw [hb]
  constructor
  · apply Int.floor_le_floor
    nlinarith [mul_nonneg hc hu0]
  · have h2 : c + c * (1 / 4) * (u * 2 - 1) ≤ (5 / 4) * c := by
      nlinarith [mul_nonneg hc (sub_nonneg.mpr hu1.le)]
    exact le_trans (Int.floor_le _) h2

/-- Witness for the amended C6 at attempt 0, initialDelay 1001,
maxDelay 10000, multiplier 2, random draw 0. -/
theorem backoffDelay_jitter_range_witness :
    (0 : ℚ) ≤ 1001 ∧ (0 : ℚ) ≤ 10000 ∧ (0 : ℚ) ≤ 2 ∧ (0 : ℚ) ≤ 0
    ∧ (0 : ℚ) < 1
    ∧ (⌊(3 / 4 : ℚ) * min ((1001 : ℚ) * 2 ^ (0 : ℕ)) 10000⌋ ≤
          Util.backoffDelay 0 1001 10000 2 0
      ∧ ((Util.backoffDelay 0 1001 10000 2 0 : ℤ) : ℚ) ≤
          (5 / 4 : ℚ) * min ((1001 : ℚ) * 2 ^ (0 : ℕ)) 10000) :=
  ⟨by norm_num, by norm_num, by norm_num, le_refl 0, by norm_num,
    backoffDelay_jitter_range 0 1001 10000 2 0 (by norm_num) (by norm_num)
      (by norm_num) (le_refl 0) (by norm_num)⟩

/-- Appending the empty string on the left is the identity. -/
theorem empty_append_str (s : String) : "" ++ s = s := by
  cases s with
  | mk data => rfl

/-- Counterexample to C8 as stated: with base address "http://h?a=1",
path "/p" and one query parameter serialised as "b=2", the code chooses
the separator from the combined address (which contains a question mark)
and produces "...&b=2", while the claim, reading only the path "/p",
predicts "...?b=2". -/
theorem toFetchUrl_path_separator_counterexample :
    Fetch.toFetchUrl
        (⟨some "/p", some "http://h?a=1", some ⟨1, "b=2"⟩, none, none,
          none, none, none, none, none, none, none, ()⟩ :
          Cfg Unit Unit Unit Unit Unit) = "http://h?a=1/p&b=2"
    ∧ Fetch.addressPathSeparatorSpec
        (⟨some "/p", some "http://h?a=1", some ⟨1, "b=2"⟩, none, none,
          none, none, none, none, none, none, none, ()⟩ :
          Cfg Unit Unit Unit Unit Unit) = "http://h?a=1/p?b=2"
    ∧ ¬ (Fetch.toFetchUrl
        (⟨some "/p", some "http://h?a=1", some ⟨1, "b=2"⟩, none, none,
          none, none, none, none, none, none, none, ()⟩ :
          Cfg Unit Unit Unit Unit Unit) =
      Fetch.addressPathSeparatorSpec
        (⟨some "/p", some "http://h?a=1", some ⟨1, "b=2"⟩, none, none,
          none, none, none, none, none, none, none, ()⟩ :
          Cfg Unit Unit Unit Unit Unit)) := by
  refine ⟨by decide, by decide, by decide⟩

/-- Claim C8, amended: the final address is the concatenation of base
address and path, followed (only when searchParams is present and
nonempty) by the serialised query parameters joined with an ampersand
when the concatenated base-plus-path address already contains a question
mark and with a question mark otherwise. -/
theorem toFetchUrl_combined_separator {Sig MW Tr PF R : Type}
    (o : Cfg Sig MW Tr PF R) :
    Fetch.toFetchUrl o = Fetch.addressCombinedSeparatorSpec o := by
  simp only [Fetch.toFetchUrl, Fetch.addressCombinedSeparatorSpec]
  have haddr : (match o.baseUrl with
      | some b => if b = "" then o.url.getD "" else b ++ o.url.getD ""
      | none => o.url.getD "") = o.baseUrl.getD "" ++ o.url.getD "" := by
    cases hb : o.baseUrl with
    | none => exact (empty_append_str _).symm
    | some b =>
      by_cases hb0 : b = ""
      · subst hb0
        simp [empty_append_str]
      · simp [hb0]
  rw [haddr]
  cases o.searchParams with
  | none => rfl
  | some sp =>
    by_cases hsz : sp.size = 0
    · simp [hsz]
    · simp [hsz, Nat.pos_of_ne_zero hsz]
